import Mathlib

/-!
Verification of the sync.areyougo.ing IMAP sync service.

Shallow embedding of the repository's core data model and operations:
* `SyncSessions` — the in-memory sync-session store (src/lib/sync-sessions.ts)
* `Senders`     — the three approved-sender matcher variants
                  (src/lib/approved-senders.ts and its earlier revisions)
* `Imap`        — the hand-rolled IMAP client (src/lib/imap-client.ts),
                  modelled as a deterministic function of the scripted
                  server lines, recording the transcript of sent commands
* `Extract`     — the imapflow-based body-extraction policy
* `Api`         — the /api/sync POST handler (src/pages/api/sync.ts)
-/

set_option autoImplicit false

deriving instance DecidableEq for Except

namespace SyncSessions

/-- Ingest status of one email in a sync session
(`SyncEmail.ingestStatus` in src/lib/sync-sessions.ts). -/
inductive IngestStatus where
  | pending
  | sending
  | success
  | failed
deriving DecidableEq, Repr

/-- One tracked email (`SyncEmail` in src/lib/sync-sessions.ts).
`date` is the ISO string stored by the orchestrator; `fromField` is the
source's `from` field (renamed: `from` is a Lean keyword). -/
structure SyncEmail where
  messageId : String
  fromField : String
  subject : String
  date : String
  body : String
  ingestStatus : IngestStatus
  ingestError : Option String := none
deriving DecidableEq, Repr

/-- Top-level status of a sync session. -/
inductive SessionStatus where
  | fetching
  | ingesting
  | completed
  | failed
deriving DecidableEq, Repr

/-- Connection state reported for observability. -/
inductive ConnectionState where
  | connecting
  | authenticating
  | connected
  | error
deriving DecidableEq, Repr

/-- A sync session (`SyncSession` in src/lib/sync-sessions.ts, the revision
with progressive fetch tracking; timestamps are integer epoch millis). -/
structure SyncSession where
  id : String
  userId : String
  status : SessionStatus
  emails : List SyncEmail
  totalFound : Nat
  totalIngested : Nat
  startedAt : Int
  completedAt : Option Int := none
  error : Option String := none
  currentSender : Option String := none
  sendersCompleted : List String := []
  sendersTotal : Nat := 0
  connectionState : Option ConnectionState := none
  connectionError : Option String := none
deriving DecidableEq, Repr

/-- The module-level `Map<string, SyncSession>`, modelled as an association
list keyed by session id. -/
abbrev Store := List (String × SyncSession)

/-- Model of `sessions.get(sessionId)` on the model store. -/
def storeGet (store : Store) (sessionId : String) : Option SyncSession :=
  match store with
  | [] => none
  | (k, s) :: rest => if k = sessionId then some s else storeGet rest sessionId

/-- In-place mutation of the session object held in the map: every entry
with the given key is replaced (keys are unique in practice, the generated
ids contain `Date.now` plus a random suffix). -/
def storeSet (store : Store) (sessionId : String) (s : SyncSession) : Store :=
  store.map (fun p => if p.1 = sessionId then (sessionId, s) else p)

/-- Initial session record written by `createSession` (the revision called
from src/pages/api/sync.ts takes only `userId`; the progressive-fetch
fields start at their defaults). -/
def initialSession (sessionId userId : String) (sendersTotal : Nat) (now : Int) :
    SyncSession :=
  { id := sessionId
    userId := userId
    status := .fetching
    emails := []
    totalFound := 0
    totalIngested := 0
    startedAt := now
    sendersCompleted := []
    sendersTotal := sendersTotal }

/-- Model of `createSession`, with the generated id and the current time as inputs. -/
def createSession (store : Store) (sessionId userId : String) (sendersTotal : Nat)
    (now : Int) : Store :=
  store ++ [(sessionId, initialSession sessionId userId sendersTotal now)]

/-- Model of `getSession(sessionId)`. -/
def getSession (store : Store) (sessionId : String) : Option SyncSession :=
  storeGet store sessionId

/-- Model of `updateSession(sessionId, updates)`.  `Object.assign(session, updates)`
with a `Partial<SyncSession>` is modelled as applying an arbitrary field
update function to the stored session. -/
def updateSession (store : Store) (sessionId : String)
    (upd : SyncSession → SyncSession) : Store :=
  match storeGet store sessionId with
  | some s => storeSet store sessionId (upd s)
  | none => store

/-- Model of `updateCurrentSender(sessionId, sender)`. -/
def updateCurrentSender (store : Store) (sessionId : String)
    (sender : Option String) : Store :=
  match storeGet store sessionId with
  | some s => storeSet store sessionId { s with currentSender := sender }
  | none => store

/-- Model of `markSenderCompleted(sessionId, sender)` — appends the sender only if it
is not already present. -/
def markSenderCompleted (store : Store) (sessionId sender : String) : Store :=
  match storeGet store sessionId with
  | some s =>
      if s.sendersCompleted.contains sender then store
      else storeSet store sessionId
        { s with sendersCompleted := s.sendersCompleted ++ [sender] }
  | none => store

/-- Model of `updateConnectionState(sessionId, state, error?)` — the error message is
only written when truthy (present and non-empty). -/
def updateConnectionState (store : Store) (sessionId : String)
    (state : ConnectionState) (error : Option String) : Store :=
  match storeGet store sessionId with
  | some s =>
      storeSet store sessionId
        { s with
          connectionState := some state
          connectionError :=
            match error with
            | some e => if e = "" then s.connectionError else some e
            | none => s.connectionError }
  | none => store

/-- Model of `addEmailToSession(sessionId, email)` — pushes the email and resets
`totalFound` to the new list length. -/
def addEmailToSession (store : Store) (sessionId : String) (email : SyncEmail) :
    Store :=
  match storeGet store sessionId with
  | some s =>
      storeSet store sessionId
        { s with
          emails := s.emails ++ [email]
          totalFound := (s.emails ++ [email]).length }
  | none => store

/-- Model of `session.emails.find((e) => e.messageId === messageId)` followed by the
in-place status/error assignment: updates the first email whose id matches,
returning the new list and whether a match was found. -/
def updateFirstEmail (emails : List SyncEmail) (messageId : String)
    (status : IngestStatus) (error : Option String) : List SyncEmail × Bool :=
  match emails with
  | [] => ([], false)
  | e :: rest =>
      if e.messageId = messageId then
        ({ e with ingestStatus := status, ingestError := error } :: rest, true)
      else
        (e :: (updateFirstEmail rest messageId status error).1,
         (updateFirstEmail rest messageId status error).2)

/-- Model of `updateEmailStatus(sessionId, messageId, status, error?)` — when a match
is found, assigns the status and error and increments `totalIngested` iff
the new status is `success`. -/
def updateEmailStatus (store : Store) (sessionId messageId : String)
    (status : IngestStatus) (error : Option String) : Store :=
  match storeGet store sessionId with
  | some s =>
      match updateFirstEmail s.emails messageId status error with
      | (emails', true) =>
          storeSet store sessionId
            { s with
              emails := emails'
              totalIngested :=
                if status = .success then s.totalIngested + 1 else s.totalIngested }
      | (_, false) => store
  | none => store

/-- Model of `cleanupSessions()` — drops sessions started more than one hour before
`now` (both in epoch millis). -/
def cleanupSessions (store : Store) (now : Int) : Store :=
  store.filter (fun p => !decide (p.2.startedAt < now - 60 * 60 * 1000))

/-! ### Session-level operations for the C1 invariant

`addEmailToSession` / `updateEmailStatus` act on the session they find in
the store; for the invariant we apply the same session transformations
directly. -/

/-- One store operation from the C1 claim. -/
inductive SessionOp where
  | appendEmail (email : SyncEmail)
  | setEmailStatus (messageId : String) (status : IngestStatus) (error : Option String)

/-- The effect of one operation on a (present) session: exactly the bodies
of `addEmailToSession` and `updateEmailStatus`. -/
def applySessionOp (s : SyncSession) : SessionOp → SyncSession
  | .appendEmail email =>
      { s with
        emails := s.emails ++ [email]
        totalFound := (s.emails ++ [email]).length }
  | .setEmailStatus messageId status error =>
      match updateFirstEmail s.emails messageId status error with
      | (emails', true) =>
          { s with
            emails := emails'
            totalIngested :=
              if status = .success then s.totalIngested + 1 else s.totalIngested }
      | (_, false) => s

/-- Apply a finite sequence of operations. -/
def runSessionOps (s : SyncSession) (ops : List SessionOp) : SyncSession :=
  ops.foldl applySessionOp s

/-- Number of emails whose ingest status is `success`. -/
def countSuccess (emails : List SyncEmail) : Nat :=
  emails.countP (fun e => e.ingestStatus == IngestStatus.success)

/-- Discipline under which `totalIngested` tracks the success count: no
appended email is already `success`, and no status update targets a message
id some email of which is already `success`. -/
def okSessionOps : SyncSession → List SessionOp → Bool
  | _, [] => true
  | s, op :: rest =>
      (match op with
       | .appendEmail email => !(email.ingestStatus == IngestStatus.success)
       | .setEmailStatus messageId _ _ =>
           s.emails.all (fun e =>
             !(e.messageId == messageId && e.ingestStatus == IngestStatus.success)))
      && okSessionOps (applySessionOp s op) rest

end SyncSessions

namespace Senders

/-! ### Approved-sender matcher variants

Three revisions of src/lib/approved-senders.ts exist in the source history:
a domain-suffix `endsWith` matcher (the current file), an exact-address
matcher with `<...>` extraction, and a brand-token regex matcher.
JS string helpers are modelled on `List Char`; `toLowerCase` is modelled by
`Char.toLower` per character (the inputs involved are ASCII). -/

/-- JS `String.prototype.toLowerCase`. -/
def jsToLower (s : String) : String :=
  String.mk (s.data.map Char.toLower)

/-- JS `String.prototype.endsWith`. -/
def jsEndsWith (s suf : String) : Bool :=
  suf.data.isSuffixOf s.data

/-- The current allow-list: `@domain.tld` suffixes
(src/lib/approved-senders.ts). -/
def APPROVED_SENDERS_suffix : List String :=
  [ "@ticketmaster.com", "@livenation.com", "@axs.com", "@eventbrite.com",
    "@dice.fm", "@seetickets.com", "@feverup.com", "@stubhub.com",
    "@vividseats.com", "@seatgeek.com",
    "@gametime.co", "@tickpick.com",
    "@thefillmore.com", "@billgrahamcivic.com", "@apeconcerts.com",
    "@livenationsf.com", "@sfballet.org", "@sfsymphony.org",
    "@insomniac.com", "@coachella.com", "@outsidelands.com" ]

/-- Model of `isApprovedSender` of the domain-suffix revision: lowercases the raw
From value and tests `endsWith` against each configured suffix. -/
def isApprovedSenderSuffix (email : String) : Bool :=
  APPROVED_SENDERS_suffix.any (fun sender => jsEndsWith (jsToLower email) sender)

/-- The exact-address allow-list of the earlier revision. -/
def APPROVED_SENDERS_exact : List String :=
  [ "order-support@frontgatetickets.com", "no-reply@tixr.com",
    "info@seetickets.us", "guestservices@axs.com", "info@ticketweb.com",
    "noreply@order.eventbrite.com", "customer_support@email.ticketmaster.com",
    "noreply@dice.fm", "events@mail.stubhub.com", "tickets@live.vividseats.com",
    "calendar.luma-mail.com", "noreply@ra.co", "noreply@orders.skiddle.com" ]

/-- First capture of the JS regex match against `<([^>]+)>`: the contents of
the leftmost angle-bracket pair with a nonempty inside.  At each `<` the
greedy `[^>]+` takes the maximal run of non-`>` characters, which must be
nonempty and followed by `>`; otherwise the scan advances one position. -/
def angleCapture : List Char → Option (List Char)
  | [] => none
  | c :: rest =>
      if c == '<' then
        let cap := rest.takeWhile (fun x => x != '>')
        let rem := rest.dropWhile (fun x => x != '>')
        -- `rem` is either empty (no `>` remains, the pair cannot close here)
        -- or starts with `>` (the capture closes and the match succeeds)
        if cap.isEmpty || rem.isEmpty then angleCapture rest else some cap
      else angleCapture rest

/-- Model of `isApprovedSender` of the exact-match revision: extracts the address
between `<` and `>` when present (else uses the whole string) and compares
case-insensitively against each configured address. -/
def isApprovedSenderExact (senderString : String) : Bool :=
  let email :=
    match angleCapture senderString.data with
    | some cap => String.mk cap
    | none => senderString
  APPROVED_SENDERS_exact.any (fun approved => jsToLower email == jsToLower approved)

/-- The brand-token allow-list of the substring-in-domain revision. -/
def APPROVED_SENDERS_tokens : List String :=
  [ "ticketmaster", "livenation", "axs", "eventbrite", "dice.fm",
    "seetickets", "feverup", "stubhub", "vividseats", "seatgeek", "tixr",
    "gametime", "tickpick",
    "thefillmore", "billgrahamcivic", "apeconcerts", "livenationsf",
    "sfballet", "sfsymphony",
    "insomniac", "coachella", "outsidelands" ]

/-- The character class written `[a-z0-9.-]` in the source pattern. -/
def domainChar (c : Char) : Bool :=
  ('a' ≤ c && c ≤ 'z') || ('0' ≤ c && c ≤ '9') || c == '.' || c == '-'

/-- The character class written `[a-z]` in the source pattern. -/
def tldChar (c : Char) : Bool :=
  'a' ≤ c && c ≤ 'z'

/-- All ways to split a list into a front and a back part. -/
def splitsList (s : List Char) : List (List Char × List Char) :=
  (List.range (s.length + 1)).map (fun i => (s.take i, s.drop i))

/-- The pattern tail `\.[a-z]` followed by at least one more `[a-z]` and the
end anchor: a dot, then two or more lowercase letters ending the string. -/
def tldTail : List Char → Bool
  | [] => false
  | c :: tld => c == '.' && (decide (2 ≤ tld.length) && tld.all tldChar)

/-- Match of the pattern suffix after `@`: a `[a-z0-9.-]*` run, the escaped
token literally, another `[a-z0-9.-]*` run, then `tldTail` closing the
string.  Dots and hyphens in the token are escaped in the source before the
regex is built, so the token matches literally. -/
def afterAt (tok rest : List Char) : Bool :=
  (splitsList rest).any (fun p =>
    p.1.all domainChar &&
    (splitsList p.2).any (fun q =>
      q.1 == tok &&
      (splitsList q.2).any (fun w =>
        w.1.all domainChar && tldTail w.2)))

/-- A match of the whole pattern starting exactly at the head of `l`:
the head must be `@` and the remainder must satisfy `afterAt`. -/
def atHead (tok : List Char) : List Char → Bool
  | [] => false
  | c :: rest => c == '@' && afterAt tok rest

/-- Model of `pattern.test(lowerEmail)` for the source pattern
`@[a-z0-9.-]*<token>[a-z0-9.-]*\.[a-z]` + one-or-more + end anchor:
an unanchored search, so a match may start anywhere, but must end at the
end of the string. -/
def tokenPatternMatch (tok s : List Char) : Bool :=
  (splitsList s).any (fun p => atHead tok p.2)

/-- Model of `isApprovedSender` of the substring-in-domain revision. -/
def isApprovedSenderTokens (email : String) : Bool :=
  APPROVED_SENDERS_tokens.any
    (fun sender => tokenPatternMatch sender.data (jsToLower email).data)

/-- Declarative reading of the spec's pattern
`@[a-z0-9.-]*<token>[a-z0-9.-]*\.[a-z]` + at-least-two-letters + end:
some decomposition of the string places `@`, the token between two runs of
domain characters, and a final dot followed by a 2+-letter label at the end. -/
def SpecTokenMatch (tok s : List Char) : Prop :=
  ∃ pre mid1 mid2 tld : List Char,
    s = pre ++ '@' :: (mid1 ++ (tok ++ (mid2 ++ '.' :: tld))) ∧
    (∀ c ∈ mid1, domainChar c = true) ∧
    (∀ c ∈ mid2, domainChar c = true) ∧
    2 ≤ tld.length ∧
    (∀ c ∈ tld, tldChar c = true)

end Senders

namespace Imap

/-! ### IMAP session driver (src/lib/imap-client.ts)

The raw-socket client is deterministic given the sequence of lines the
server sends, so each connect path is modelled as a function of that
scripted line list.  The model threads a `ProtoState` holding the remaining
script and the transcript of `(tag, command)` pairs written so far; a read
from an exhausted script is the `Connection closed` error thrown by
`ImapReader.readLine`. -/

/-- JS `String.prototype.startsWith`. -/
def jsStartsWith (s pre : String) : Bool :=
  pre.data.isPrefixOf s.data

/-- Whether `sub` occurs as a contiguous run inside `s`. -/
def hasInfixList (s sub : List Char) : Bool :=
  if sub.isPrefixOf s then true
  else
    match s with
    | [] => false
    | _ :: rest => hasInfixList rest sub

/-- JS `String.prototype.includes`. -/
def jsIncludes (s sub : String) : Bool :=
  hasInfixList s.data sub.data

/-- JS `String.prototype.trim`. -/
def jsTrim (s : String) : String :=
  String.mk (((s.data.dropWhile Char.isWhitespace).reverse.dropWhile
    Char.isWhitespace).reverse)

/-- JS `split(' ')` — splits at every single space, keeping empty pieces. -/
def splitOnSpaceAux : List Char → List (List Char)
  | [] => [[]]
  | c :: rest =>
      if c == ' ' then [] :: splitOnSpaceAux rest
      else
        match splitOnSpaceAux rest with
        | g :: gs => (c :: g) :: gs
        | [] => [[c]]

/-- JS `split(' ')` on strings. -/
def jsSplitOnSpace (s : String) : List String :=
  (splitOnSpaceAux s.data).map String.mk

/-- JS `String.prototype.replace` with a string pattern: replaces only the
first occurrence. -/
def replaceFirstAux (pat rep : List Char) : List Char → List Char
  | [] => if pat.isEmpty then rep else []
  | c :: rest =>
      if pat.isPrefixOf (c :: rest) then rep ++ (c :: rest).drop pat.length
      else c :: replaceFirstAux pat rep rest

/-- JS `s.replace(pat, rep)` for string patterns. -/
def jsReplaceFirst (s pat rep : String) : String :=
  String.mk (replaceFirstAux pat.data rep.data s.data)

/-- A JS `Date` value: either a point in time (epoch millis) or the
Invalid Date produced by `new Date(<unparsable string>)`. -/
inductive JsDate where
  | invalid
  | valid (t : Int)
deriving DecidableEq, Repr

/-- Model of `new Date(s)`, parameterized by the engine's date parsing: `none` means
the string is unparsable and the result is Invalid Date. -/
def jsNewDate (parseDate : String → Option Int) (s : String) : JsDate :=
  match parseDate s with
  | some t => .valid t
  | none => .invalid

/-- The `Email` record produced by the raw-socket client. -/
structure JsEmail where
  messageId : String
  fromField : String
  subject : String
  date : JsDate
  body : String
deriving DecidableEq, Repr

/-- Connection state: remaining server script and the transcript of
commands sent so far as `(tag, command)` pairs. -/
structure ProtoState where
  script : List String
  sent : List (String × String)
deriving DecidableEq, Repr

/-- Sequencing of protocol steps; an error (the thrown `Connection closed`,
or a rethrown command failure) carries the message and the state at the
point of failure. -/
def pstep {α β : Type}
    (x : Except (String × ProtoState) (α × ProtoState))
    (f : α → ProtoState → Except (String × ProtoState) (β × ProtoState)) :
    Except (String × ProtoState) (β × ProtoState) :=
  match x with
  | .ok (a, st) => f a st
  | .error e => .error e

/-- Model of `ImapReader.readLine` — one line of the script, or the thrown
`Connection closed` when the stream is exhausted. -/
def readLine (st : ProtoState) :
    Except (String × ProtoState) (String × ProtoState) :=
  match st.script with
  | [] => .error ("Connection closed", st)
  | l :: rest => .ok (l, { st with script := rest })

/-- Core of `ImapReader.readUntilTag`: consume lines until one starts with
the tag, returning the consumed lines (tagged line included) and the rest;
`none` when the script runs out first (connection closed). -/
def readUntilTagAux (tag : String) : List String → Option (List String × List String)
  | [] => none
  | l :: rest =>
      if jsStartsWith l tag then some ([l], rest)
      else
        match readUntilTagAux tag rest with
        | some (lines, rem) => some (l :: lines, rem)
        | none => none

/-- Model of `ImapReader.readUntilTag` on the connection state. -/
def readUntilTag (tag : String) (st : ProtoState) :
    Except (String × ProtoState) (List String × ProtoState) :=
  match readUntilTagAux tag st.script with
  | some (lines, rem) => .ok (lines, { st with script := rem })
  | none => .error ("Connection closed", { st with script := [] })

/-- Model of `sendCommand` — writes `TAG command` and reads until the tagged reply. -/
def sendCommand (st : ProtoState) (tag command : String) :
    Except (String × ProtoState) (List String × ProtoState) :=
  readUntilTag tag { st with sent := st.sent ++ [(tag, command)] }

/-- The tagged LOGIN command line body. -/
def loginCommand (email password : String) : String :=
  "LOGIN \"" ++ email ++ "\" \"" ++ password ++ "\""

/-- Result shape of `testConnection` / connection-level failures. -/
structure ConnResult where
  success : Bool
  error : Option String := none
deriving DecidableEq, Repr

/-- Model of `testConnectionImpl`, after the TLS setup: greeting validation, LOGIN,
LOGOUT.  The TLS/socket plumbing has no protocol-visible effect and is not
modelled. -/
def testConnectionSteps (email password : String) (st : ProtoState) :
    Except (String × ProtoState) (ConnResult × ProtoState) :=
  pstep (readLine st) fun greeting st =>
  if !(jsStartsWith greeting "* OK") then
    .ok ({ success := false, error := some "Unexpected server greeting" }, st)
  else
    pstep (sendCommand st "A001" (loginCommand email password)) fun loginResponse st =>
    if !(jsIncludes (loginResponse.getLastD "") "OK") then
      .ok ({ success := false, error := some "Invalid credentials" }, st)
    else
      pstep (sendCommand st "A002" "LOGOUT") fun _ st =>
      .ok ({ success := true }, st)

/-- Model of `testConnectionImpl` with its try/catch: a thrown error becomes a
failure result carrying the error message. -/
def testConnectionImplRun (email password : String) (script : List String) :
    ConnResult × ProtoState :=
  match testConnectionSteps email password { script := script, sent := [] } with
  | .ok r => r
  | .error (msg, st) => ({ success := false, error := some msg }, st)

/-! #### `fetchEmail` response parsing -/

/-- Header accumulation state of the `fetchEmail` parse loop. -/
structure FetchParseState where
  headers : List (String × String)
  body : String
  inHeaders : Bool
  inBody : Bool
deriving DecidableEq, Repr

/-- Model of `headers[key] = value` on the record object: later writes to the same
key overwrite. -/
def upsertHeader (k v : String) : List (String × String) → List (String × String)
  | [] => [(k, v)]
  | (k', v') :: rest =>
      if k' = k then (k, v) :: rest else (k', v') :: upsertHeader k v rest

/-- Model of `headers[key]` lookup. -/
def headerValue (headers : List (String × String)) (k : String) : Option String :=
  match headers with
  | [] => none
  | (k', v) :: rest => if k' = k then some v else headerValue rest k

/-- Truthiness of `headers[key]`: present and non-empty. -/
def truthyHeader (headers : List (String × String)) (k : String) : Option String :=
  match headerValue headers k with
  | some v => if v = "" then none else some v
  | none => none

/-- Split a line at its first colon (`line.indexOf(':')`). -/
def splitAtFirstColon : List Char → Option (List Char × List Char)
  | [] => none
  | c :: rest =>
      if c == ':' then some ([], rest)
      else
        match splitAtFirstColon rest with
        | some (a, b) => some (c :: a, b)
        | none => none

/-- Key/value of a header line: lowercased trimmed key before the first
colon, trimmed value after it.  `none` when the line has no colon
(`line.includes(':')` fails). -/
def headerKeyValue (line : String) : Option (String × String) :=
  match splitAtFirstColon line.data with
  | some (before, after) =>
      some (jsTrim (String.mk (before.map Char.toLower)), jsTrim (String.mk after))
  | none => none

/-- One line of the `fetchEmail` parse loop. -/
def fetchParseStep (tag : String) (ps : FetchParseState) (line : String) :
    FetchParseState :=
  if jsIncludes line "BODY[HEADER" then { ps with inHeaders := true }
  else if jsIncludes line "BODY[TEXT]" then { ps with inHeaders := false, inBody := true }
  else
    let ps :=
      if ps.inHeaders then
        match headerKeyValue line with
        | some (k, v) => { ps with headers := upsertHeader k v ps.headers }
        | none => ps
      else ps
    if ps.inBody && !(jsStartsWith line tag) && !(jsStartsWith line ")") then
      { ps with body := ps.body ++ line ++ "\n" }
    else ps

/-- The parse loop over a whole FETCH response. -/
def fetchParsedState (tag : String) (lines : List String) : FetchParseState :=
  lines.foldl (fetchParseStep tag)
    { headers := [], body := "", inHeaders := false, inBody := false }

/-- The extractor of `fetchEmail`: `null` when the FROM or SUBJECT header
is missing (or empty, both being falsy); otherwise the `Email` record with
the Message-ID and Date fallbacks of the source. -/
def fetchEmailParse (tag msgId : String) (lines : List String)
    (parseDate : String → Option Int) (now : Int) : Option JsEmail :=
  let ps := fetchParsedState tag lines
  match truthyHeader ps.headers "from", truthyHeader ps.headers "subject" with
  | some fromV, some subjectV =>
      some
        { messageId := (truthyHeader ps.headers "message-id").getD (msgId ++ "@unknown")
          fromField := fromV
          subject := subjectV
          date :=
            match truthyHeader ps.headers "date" with
            | some d => jsNewDate parseDate d
            | none => .valid now
          body := jsTrim ps.body }
  | _, _ => none

/-- The FETCH command issued by `fetchEmail`. -/
def fetchCommand (msgId : String) : String :=
  "FETCH " ++ msgId ++
    " (BODY[HEADER.FIELDS (FROM SUBJECT DATE MESSAGE-ID)] BODY[TEXT]<0.10000>)"

/-- Model of `fetchEmail`: one tagged FETCH round-trip plus response parsing. -/
def fetchEmailRun (msgId : String) (parseDate : String → Option Int) (now : Int)
    (st : ProtoState) :
    Except (String × ProtoState) (Option JsEmail × ProtoState) :=
  pstep (sendCommand st ("F" ++ msgId) (fetchCommand msgId)) fun response st =>
  .ok (fetchEmailParse ("F" ++ msgId) msgId response parseDate now, st)

/-- The per-message fetch loop: each `fetchEmail` error is caught, logged,
and the loop continues with the next id. -/
def fetchLoop (parseDate : String → Option Int) (now : Int) :
    List String → List JsEmail → ProtoState → List JsEmail × ProtoState
  | [], acc, st => (acc, st)
  | msgId :: rest, acc, st =>
      match fetchEmailRun msgId parseDate now st with
      | .ok (some e, st') => fetchLoop parseDate now rest (acc ++ [e]) st'
      | .ok (none, st') => fetchLoop parseDate now rest acc st'
      | .error (_, st') => fetchLoop parseDate now rest acc st'

/-- The tagged SEARCH command line body. -/
def searchCommand (sender sinceDate : String) : String :=
  "SEARCH FROM \"" ++ sender ++ "\" SINCE " ++ sinceDate

/-- Message-id parsing from a `* SEARCH 1 2 3` line: strip the prefix,
trim, split on spaces, drop empty (falsy) pieces. -/
def parseSearchIds (searchLine : String) : List String :=
  (jsSplitOnSpace (jsTrim (jsReplaceFirst searchLine "* SEARCH" ""))).filter
    (fun s => !s.isEmpty)

/-- The per-sender SEARCH+FETCH loop of `fetchTicketEmails`: every SEARCH
is sent with the same tag `A003`; at most 10 ids are fetched per sender. -/
def searchSendersLoop (sinceDate : String) (parseDate : String → Option Int)
    (now : Int) :
    List String → List JsEmail → ProtoState →
      Except (String × ProtoState) (List JsEmail × ProtoState)
  | [], acc, st => .ok (acc, st)
  | sender :: rest, acc, st =>
      pstep (sendCommand st "A003" (searchCommand sender sinceDate)) fun searchResponse st =>
      match searchResponse.find? (fun l => jsStartsWith l "* SEARCH") with
      | none => searchSendersLoop sinceDate parseDate now rest acc st
      | some searchLine =>
          let messageIds := parseSearchIds searchLine
          match fetchLoop parseDate now (messageIds.take 10) acc st with
          | (acc', st') => searchSendersLoop sinceDate parseDate now rest acc' st'

/-- The state reached when a protocol computation returns or throws. -/
def resultState {α : Type} :
    Except (String × ProtoState) (α × ProtoState) → ProtoState
  | .ok (_, st) => st
  | .error (_, st) => st

/-- Model of `fetchTicketEmails` from the point the LOGIN response is in hand:
check it, SELECT, run the per-sender loop, LOGOUT. -/
def afterLoginSteps (sinceDate : String) (parseDate : String → Option Int)
    (now : Int) (loginResponse : List String) (st : ProtoState) :
    Except (String × ProtoState) (List JsEmail × ProtoState) :=
  if !(jsIncludes (loginResponse.getLastD "") "OK") then .error ("Login failed", st)
  else
    pstep (sendCommand st "A002" "SELECT INBOX") fun _selectResponse st =>
    pstep (searchSendersLoop sinceDate parseDate now
      Senders.APPROVED_SENDERS_suffix [] st) fun emails st =>
    pstep (sendCommand st "A999" "LOGOUT") fun _ st =>
    .ok (emails, st)

/-- Model of `fetchTicketEmails` protocol interaction: the greeting is read but —
unlike in the other two connect paths — not validated before LOGIN.
`sinceDate` is the already-formatted SINCE argument (the source computes it
from `lookbackDays` / `lastSyncAt` / a 30-day default via `formatImapDate`;
no claim depends on that computation). -/
def fetchTicketEmailsSteps (email password sinceDate : String)
    (parseDate : String → Option Int) (now : Int) (st : ProtoState) :
    Except (String × ProtoState) (List JsEmail × ProtoState) :=
  pstep (readLine st) fun _greeting st =>
  pstep (sendCommand st "A001" (loginCommand email password))
    (afterLoginSteps sinceDate parseDate now)

/-- Model of `fetchTicketEmails` with its try/catch (errors are logged and
rethrown, so the run resolves to the error). -/
def fetchTicketEmailsRun (email password sinceDate : String)
    (parseDate : String → Option Int) (now : Int) (script : List String) :
    Except String (List JsEmail) × ProtoState :=
  match fetchTicketEmailsSteps email password sinceDate parseDate now
      { script := script, sent := [] } with
  | .ok (emails, st) => (.ok emails, st)
  | .error (msg, st) => (.error msg, st)

/-! #### `fetchSampleEmails` -/

/-- Header-only preview record. -/
structure EmailPreview where
  fromField : String
  subject : String
  date : String
deriving DecidableEq, Repr

/-- JS `parseInt(s, 10)` restricted to nonnegative results: the longest
digit prefix of the trimmed string; `none` is NaN. -/
def jsParseIntNat (s : String) : Option Nat :=
  let ds := (jsTrim s).data.takeWhile Char.isDigit
  if ds.isEmpty then none
  else some (ds.foldl (fun n c => n * 10 + (c.toNat - 48)) 0)

/-- State of the preview header parse loop. -/
structure PreviewParseState where
  allEmails : List EmailPreview
  currentHeaders : List (String × String)
  inHeaders : Bool
deriving DecidableEq, Repr

/-- Flush the current headers into the preview list when they are nonempty
and carry truthy from and subject fields. -/
def flushPreview (nowIso : String) (hs : List (String × String))
    (acc : List EmailPreview) : List EmailPreview :=
  if !hs.isEmpty then
    match truthyHeader hs "from", truthyHeader hs "subject" with
    | some f, some sub =>
        acc ++ [{ fromField := f, subject := sub,
                  date := (truthyHeader hs "date").getD nowIso }]
    | _, _ => acc
  else acc

/-- One line of the preview parse loop of `fetchSampleEmailsImpl`. -/
def previewParseStep (nowIso : String) (ps : PreviewParseState) (line : String) :
    PreviewParseState :=
  if jsIncludes line "FETCH" && jsIncludes line "BODY[HEADER" then
    { allEmails := flushPreview nowIso ps.currentHeaders ps.allEmails,
      currentHeaders := [], inHeaders := true }
  else if line == ")" || jsStartsWith line "A003" then
    { allEmails := flushPreview nowIso ps.currentHeaders ps.allEmails,
      currentHeaders := [], inHeaders := false }
  else if ps.inHeaders then
    match headerKeyValue line with
    | some (k, v) => { ps with currentHeaders := upsertHeader k v ps.currentHeaders }
    | none => ps
  else ps

/-- Result shape of `fetchSampleEmails`. -/
structure SampleResult where
  success : Bool
  emails : Option (List EmailPreview) := none
  error : Option String := none
deriving DecidableEq, Repr

/-- Model of `fetchSampleEmailsImpl` after TLS setup: greeting validation, LOGIN,
SELECT, one ranged FETCH of the last 100 headers, local filtering by the
approved-sender matcher, LOGOUT.  An unparsable EXISTS count (impossible on
a well-formed line) is collapsed to 0 rather than modelling NaN. -/
def fetchSampleEmailsSteps (email password nowIso : String) (maxEmails : Nat)
    (st : ProtoState) :
    Except (String × ProtoState) (SampleResult × ProtoState) :=
  pstep (readLine st) fun greeting st =>
  if !(jsStartsWith greeting "* OK") then
    .ok ({ success := false, error := some "Unexpected server greeting" }, st)
  else
    pstep (sendCommand st "A001" (loginCommand email password)) fun loginResponse st =>
    if !(jsIncludes (loginResponse.getLastD "") "OK") then
      .ok ({ success := false, error := some "Invalid credentials" }, st)
    else
      pstep (sendCommand st "A002" "SELECT INBOX") fun selectResponse st =>
      let messageCount : Nat :=
        match selectResponse.find? (fun l => jsIncludes l " EXISTS") with
        | some l =>
            (jsParseIntNat (jsReplaceFirst (jsReplaceFirst l "* " "") " EXISTS" "")).getD 0
        | none => 0
      if messageCount == 0 then
        pstep (sendCommand st "A999" "LOGOUT") fun _ st =>
        .ok ({ success := true, emails := some [] }, st)
      else
        let fetchCount := min 100 messageCount
        let startMsg := max 1 (messageCount - fetchCount + 1)
        pstep (sendCommand st "A003"
          ("FETCH " ++ toString startMsg ++ ":" ++ toString messageCount ++
            " (BODY[HEADER.FIELDS (FROM SUBJECT DATE)])")) fun fetchResponse st =>
        let ps := fetchResponse.foldl (previewParseStep nowIso)
          { allEmails := [], currentHeaders := [], inHeaders := false }
        let ticketEmails := ps.allEmails.filter
          (fun e => Senders.isApprovedSenderSuffix e.fromField)
        pstep (sendCommand st "A999" "LOGOUT") fun _ st =>
        .ok ({ success := true, emails := some (ticketEmails.take maxEmails) }, st)

/-- Model of `fetchSampleEmailsImpl` with its try/catch. -/
def fetchSampleEmailsImplRun (email password nowIso : String) (maxEmails : Nat)
    (script : List String) : SampleResult × ProtoState :=
  match fetchSampleEmailsSteps email password nowIso maxEmails
      { script := script, sent := [] } with
  | .ok r => r
  | .error (msg, st) => ({ success := false, error := some msg }, st)

end Imap

namespace Extract

/-- Body extraction policy of the imapflow-based `fetchTicketEmails`
revision, parameterized by the `html-to-text` conversion: prefer the
plaintext part unless it is shorter than 100 characters while a non-empty
HTML part exists, in which case use the converted HTML. -/
def extractBody (convert : String → String) (text html : String) : String :=
  if text.length < 100 && html.length > 0 then convert html else text

end Extract

namespace Api

/-! ### The /api/sync POST handler (src/pages/api/sync.ts, the revision
with the session store and background `processSync`)

The handler is modelled as a function from its request-relevant inputs
(authentication result, parsed body, stored credential, the outcome of
`fetchTicketEmails`, and the outcomes of the per-email ingest POSTs) to the
response, the resulting session store, and a record of the external side
effects.  The background `processSync` task is modelled as running to
completion. -/

/-- The per-email record sent back in a dry-run preview. -/
structure EmailForIngest where
  messageId : String
  fromField : String
  subject : String
  date : String
  body : String
deriving DecidableEq, Repr

/-- Model of `email.date.toISOString()` is abstracted by `isoOf`. -/
def toEmailForIngest (isoOf : Imap.JsDate → String) (e : Imap.JsEmail) :
    EmailForIngest :=
  { messageId := e.messageId, fromField := e.fromField, subject := e.subject,
    date := isoOf e.date, body := e.body }

/-- The session-store record for a fetched email (`ingestStatus: 'pending'`). -/
def toSyncEmail (isoOf : Imap.JsDate → String) (e : Imap.JsEmail) :
    SyncSessions.SyncEmail :=
  { messageId := e.messageId, fromField := e.fromField, subject := e.subject,
    date := isoOf e.date, body := e.body, ingestStatus := .pending }

/-- The stored IMAP credential row (timestamps as epoch millis). -/
structure CredRec where
  userId : String
  userEmail : String
  host : String
  port : Int
  imapEmail : String
  encryptedPassword : String
  iv : String
  lastSyncAt : Option Int := none
  lastManualSyncAt : Option Int := none
deriving DecidableEq, Repr

/-- External side effects of one handler invocation: ingest-endpoint POSTs,
the credential timestamp update, and sync-history audit rows. -/
structure SyncEffects where
  ingestPosts : Nat := 0
  credUpdated : Bool := false
  auditRows : Nat := 0
deriving DecidableEq, Repr

/-- No external side effects. -/
def noEffects : SyncEffects := {}

/-- The JSON response bodies the handler can produce. -/
inductive SyncResponseBody where
  | err (message : String)
  | rateLimited (message : String) (rateLimitedUntil : Int)
  | preview (emails : List EmailForIngest) (emailsFound : Nat)
  | started (sessionId : String)
deriving DecidableEq, Repr

/-- Inputs of one handler invocation. -/
structure SyncPostInput where
  encryptionKeySet : Bool
  user : Option String
  lookbackDays : Option Int
  dryRun : Bool
  cred : Option CredRec
  isDev : Bool
  now : Int
  fetchResult : Except String (List Imap.JsEmail)
  ingestOk : Nat → Bool
  ingestErrText : Nat → String
  isoOf : Imap.JsDate → String
  newSessionId : String
  store : SyncSessions.Store

/-- Result of one handler invocation. -/
structure SyncPostOutput where
  status : Nat
  response : SyncResponseBody
  store : SyncSessions.Store
  effects : SyncEffects

/-- The ingest loop of `processSync`: each email is set `sending`, POSTed
once, then set `success` or `failed` with the response text. -/
def ingestLoop (sid : String) (ingestOk : Nat → Bool) (ingestErrText : Nat → String) :
    List SyncSessions.SyncEmail → Nat → SyncSessions.Store →
      SyncSessions.Store × Nat
  | [], i, store => (store, i)
  | e :: rest, i, store =>
      let store := SyncSessions.updateEmailStatus store sid e.messageId .sending none
      let store :=
        if ingestOk i then
          SyncSessions.updateEmailStatus store sid e.messageId .success none
        else
          SyncSessions.updateEmailStatus store sid e.messageId .failed
            (some (ingestErrText i))
      ingestLoop sid ingestOk ingestErrText rest (i + 1) store

/-- Model of `processSync` run to completion: fetch, record emails as pending,
ingest each, then persist timestamps and one audit row; any error marks the
session failed without reaching the persistence step. -/
def processSyncModel (store : SyncSessions.Store) (sid : String)
    (fetchResult : Except String (List Imap.JsEmail)) (ingestOk : Nat → Bool)
    (ingestErrText : Nat → String) (isoOf : Imap.JsDate → String) (now : Int) :
    SyncSessions.Store × SyncEffects :=
  match fetchResult with
  | .error msg =>
      (SyncSessions.updateSession store sid
        (fun s => { s with status := .failed, error := some msg,
                           completedAt := some now }), noEffects)
  | .ok emails =>
      let store := emails.foldl
        (fun st e => SyncSessions.addEmailToSession st sid (toSyncEmail isoOf e)) store
      let store := SyncSessions.updateSession store sid
        (fun s => { s with status := .ingesting })
      match SyncSessions.getSession store sid with
      | none =>
          (SyncSessions.updateSession store sid
            (fun s => { s with status := .failed, error := some "Session not found",
                               completedAt := some now }), noEffects)
      | some session =>
          match ingestLoop sid ingestOk ingestErrText session.emails 0 store with
          | (store, posts) =>
              let store := SyncSessions.updateSession store sid
                (fun s => { s with status := .completed, completedAt := some now })
              (store, { ingestPosts := posts, credUpdated := true, auditRows := 1 })

/-- The handler steps after the rate-limit gate: the dry-run branch returns
the mapped preview synchronously; the real branch sweeps expired sessions,
creates a session, and starts `processSync`. -/
def syncPostAfterRateLimit (inp : SyncPostInput) (userId : String) : SyncPostOutput :=
  if inp.dryRun then
    match inp.fetchResult with
    | .error msg =>
        { status := 500, response := .err msg, store := inp.store, effects := noEffects }
    | .ok emails =>
        { status := 200,
          response := .preview (emails.map (toEmailForIngest inp.isoOf)) emails.length,
          store := inp.store, effects := noEffects }
  else
    let store := SyncSessions.cleanupSessions inp.store inp.now
    let store := SyncSessions.createSession store inp.newSessionId userId 0 inp.now
    match processSyncModel store inp.newSessionId inp.fetchResult inp.ingestOk
        inp.ingestErrText inp.isoOf inp.now with
    | (store, effects) =>
        { status := 202, response := .started inp.newSessionId,
          store := store, effects := effects }

/-- The POST handler: configuration check, authentication, body validation,
credential lookup, the 24-hour manual-sync rate limit (skipped in dev and
for dry runs), then the dry-run or background-sync branch.  `hoursSince <
24` on millisecond timestamps is the inequality `now - t < 24*60*60*1000`. -/
def syncPost (inp : SyncPostInput) : SyncPostOutput :=
  if !inp.encryptionKeySet then
    { status := 500, response := .err "Server configuration error",
      store := inp.store, effects := noEffects }
  else
    match inp.user with
    | none =>
        { status := 401, response := .err "Unauthorized",
          store := inp.store, effects := noEffects }
    | some userId =>
        match inp.lookbackDays with
        | none =>
            { status := 400, response := .err "Invalid lookbackDays",
              store := inp.store, effects := noEffects }
        | some lookbackDays =>
            if lookbackDays < 1 then
              { status := 400, response := .err "Invalid lookbackDays",
                store := inp.store, effects := noEffects }
            else
              match inp.cred with
              | none =>
                  { status := 400, response := .err "No IMAP credentials configured",
                    store := inp.store, effects := noEffects }
              | some cred =>
                  match cred.lastManualSyncAt with
                  | some t =>
                      if !inp.isDev && !inp.dryRun &&
                          decide (inp.now - t < 24 * 60 * 60 * 1000) then
                        { status := 429,
                          response := .rateLimited
                            "Rate limited. Manual sync available once per 24 hours."
                            (t + 24 * 60 * 60 * 1000),
                          store := inp.store, effects := noEffects }
                      else syncPostAfterRateLimit inp userId
                  | none => syncPostAfterRateLimit inp userId

end Api

namespace Fixtures

/-! Concrete inputs used by counterexamples and witnesses. -/

/-- A freshly extracted, pending email. -/
def pendingEmail : SyncSessions.SyncEmail :=
  { messageId := "m1", fromField := "a@ticketmaster.com", subject := "Your order",
    date := "2024-01-05T00:00:00.000Z", body := "body", ingestStatus := .pending }

/-- Two `success` updates for the same message: the second one
double-counts. -/
def doubleSuccessOps : List SyncSessions.SessionOp :=
  [ .appendEmail pendingEmail,
    .setEmailStatus "m1" .success none,
    .setEmailStatus "m1" .success none ]

/-- The op sequence of a normal sync: append pending, mark sending, then
mark success once. -/
def disciplinedOps : List SyncSessions.SessionOp :=
  [ .appendEmail pendingEmail,
    .setEmailStatus "m1" .sending none,
    .setEmailStatus "m1" .success none ]

/-- A store holding one session, for lookups of a different id. -/
def storeA : SyncSessions.Store :=
  [("sync_a", SyncSessions.initialSession "sync_a" "u1" 2 0)]

/-- A server script on which every command completes: the transcript shows
the SEARCH tag `A003` reused for all 21 approved senders. -/
def tagReuseScript : List String :=
  ["* OK ready", "A001 OK LOGIN done", "A002 OK SELECT done"]
    ++ List.replicate 21 "A003 OK SEARCH done" ++ ["A999 OK LOGOUT done"]

/-- A FETCH response whose DATE header is present but unparsable. -/
def fetchRecordBadDate : List String :=
  [ "* 7 FETCH (BODY[HEADER.FIELDS (FROM SUBJECT DATE MESSAGE-ID)]",
    "From: a@ticketmaster.com", "Subject: Your order", "Date: not-a-real-date",
    ")", "F7 OK FETCH completed" ]

/-- A FETCH response with no DATE and no MESSAGE-ID header. -/
def fetchRecordNoDate : List String :=
  [ "* 7 FETCH (BODY[HEADER.FIELDS (FROM SUBJECT DATE MESSAGE-ID)]",
    "From: a@ticketmaster.com", "Subject: Your order",
    ")", "F7 OK FETCH completed" ]

/-- A FETCH response with no FROM header. -/
def fetchRecordNoFrom : List String :=
  [ "* 7 FETCH (BODY[HEADER.FIELDS (FROM SUBJECT DATE MESSAGE-ID)]",
    "Subject: Your order", ")", "F7 OK FETCH completed" ]

/-- The email `fetchEmail` extracts from `fetchRecordNoDate` with `now = 5`. -/
def noDateEmail : Imap.JsEmail :=
  { messageId := "7@unknown", fromField := "a@ticketmaster.com",
    subject := "Your order", date := .valid 5, body := "" }

/-- A stored credential row. -/
def credA : Api.CredRec :=
  { userId := "u1", userEmail := "u@example.com", host := "imap.mail.me.com",
    port := 993, imapEmail := "u@icloud.com", encryptedPassword := "enc",
    iv := "iv", lastSyncAt := none, lastManualSyncAt := some 0 }

/-- One fetched email for the dry-run preview. -/
def emailA : Imap.JsEmail :=
  { messageId := "<id1>", fromField := "a@ticketmaster.com",
    subject := "Your ticket order", date := .valid 10, body := "hello" }

/-- A dry-run request on a populated store, with a successful fetch. -/
def dryRunInput : Api.SyncPostInput :=
  { encryptionKeySet := true, user := some "u1", lookbackDays := some 30,
    dryRun := true, cred := some credA, isDev := false, now := 1000,
    fetchResult := .ok [emailA], ingestOk := fun _ => true,
    ingestErrText := fun _ => "ingest error", isoOf := fun _ => "iso",
    newSessionId := "sync_new", store := storeA }

/-- A 40-character plaintext part. -/
def shortPlaintext : String := "Your order is confirmed. See HTML email."

/-- A present HTML part. -/
def htmlPart : String := "<p>Order details</p>"

end Fixtures

namespace SyncSessions

theorem updateFirstEmail_length (emails : List SyncEmail) (messageId : String)
    (status : IngestStatus) (error : Option String) :
    (updateFirstEmail emails messageId status error).1.length = emails.length := by
  induction emails with
  | nil => rfl
  | cons e rest ih =>
      by_cases h : e.messageId = messageId
      · simp [updateFirstEmail, h]
      · simp [updateFirstEmail, h, ih]

theorem countSuccess_append (l1 l2 : List SyncEmail) :
    countSuccess (l1 ++ l2) = countSuccess l1 + countSuccess l2 := by
  simp [countSuccess, List.countP_append]

theorem updateFirstEmail_countSuccess (emails : List SyncEmail) (messageId : String)
    (status : IngestStatus) (error : Option String)
    (h : ∀ e ∈ emails, e.messageId = messageId → e.ingestStatus ≠ .success) :
    countSuccess (updateFirstEmail emails messageId status error).1 =
      countSuccess emails +
        (if (updateFirstEmail emails messageId status error).2 = true ∧
            status = .success then 1 else 0) := by
  induction emails with
  | nil => simp [updateFirstEmail, countSuccess]
  | cons e rest ih =>
      by_cases he : e.messageId = messageId
      · have hns : e.ingestStatus ≠ .success := h e (by simp) he
        simp only [updateFirstEmail, he, if_pos, countSuccess, List.countP_cons]
        by_cases hst : status = .success
        · simp [hst, beq_iff_eq, hns]
        · simp [hst, beq_iff_eq, hns]
      · have ih' := ih (fun x hx => h x (by simp [hx]))
        simp only [updateFirstEmail, he, if_neg, not_false_iff, countSuccess,
          List.countP_cons] at ih' ⊢
        omega

theorem applySessionOp_totalFound (s : SyncSession) (op : SessionOp)
    (h : s.totalFound = s.emails.length) :
    (applySessionOp s op).totalFound = (applySessionOp s op).emails.length := by
  cases op with
  | appendEmail email => simp [applySessionOp]
  | setEmailStatus messageId status error =>
      cases hu : updateFirstEmail s.emails messageId status error with
      | mk emails' found =>
          cases found with
          | true =>
              have hl := updateFirstEmail_length s.emails messageId status error
              rw [hu] at hl
              simp [applySessionOp, hu, h, hl]
          | false => simp [applySessionOp, hu, h]

theorem applySessionOp_totalIngested (s : SyncSession) (op : SessionOp)
    (h : s.totalIngested = countSuccess s.emails)
    (hok : (match op with
            | .appendEmail email => !(email.ingestStatus == IngestStatus.success)
            | .setEmailStatus messageId _ _ =>
                s.emails.all (fun e =>
                  !(e.messageId == messageId &&
                    e.ingestStatus == IngestStatus.success))) = true) :
    (applySessionOp s op).totalIngested = countSuccess (applySessionOp s op).emails := by
  cases op with
  | appendEmail email =>
      simp only [Bool.not_eq_true', beq_eq_false_iff_ne, ne_eq] at hok
      simp [applySessionOp, countSuccess_append, h, countSuccess,
        List.countP_cons, hok]
  | setEmailStatus messageId status error =>
      simp only [List.all_eq_true, Bool.not_eq_true', Bool.and_eq_false_iff,
        beq_eq_false_iff_ne, ne_eq] at hok
      have hok' : ∀ e ∈ s.emails, e.messageId = messageId →
          e.ingestStatus ≠ .success := by
        intro e he hm
        rcases hok e he with h1 | h2
        · exact absurd hm h1
        · exact h2
      have hc := updateFirstEmail_countSuccess s.emails messageId status error hok'
      cases hu : updateFirstEmail s.emails messageId status error with
      | mk emails' found =>
          rw [hu] at hc
          cases found with
          | true =>
              by_cases hst : status = .success
              · subst hst
                have hc1 : countSuccess emails' = countSuccess s.emails + 1 := by
                  simpa using hc
                simp [applySessionOp, hu, h, hc1]
              · have hc1 : countSuccess emails' = countSuccess s.emails := by
                  simpa [hst] using hc
                simp [applySessionOp, hu, hst, h, hc1]
          | false => simp [applySessionOp, hu, h]

theorem runSessionOps_totalFound (s : SyncSession) (ops : List SessionOp)
    (h : s.totalFound = s.emails.length) :
    (runSessionOps s ops).totalFound = (runSessionOps s ops).emails.length := by
  induction ops generalizing s with
  | nil => exact h
  | cons op rest ih =>
      exact ih (applySessionOp s op) (applySessionOp_totalFound s op h)

theorem runSessionOps_totalIngested (s : SyncSession) (ops : List SessionOp)
    (h : s.totalIngested = countSuccess s.emails)
    (hok : okSessionOps s ops = true) :
    (runSessionOps s ops).totalIngested =
      countSuccess (runSessionOps s ops).emails := by
  induction ops generalizing s with
  | nil => exact h
  | cons op rest ih =>
      simp only [okSessionOps, Bool.and_eq_true] at hok
      exact ih (applySessionOp s op)
        (applySessionOp_totalIngested s op h hok.1) hok.2

/-- Claim C1 (corrected): starting from a freshly created session, after any
finite sequence of `addEmailToSession`/`updateEmailStatus` operations,
`totalFound` always equals the length of the email list; `totalIngested`
equals the number of `success`-status emails provided the sequence never
appends an already-successful email and never updates a message id some
email of which is already `success` (without that proviso `totalIngested`
counts success updates, not success emails — see the counterexample). -/
theorem c1_invariants_amended (sessionId userId : String) (sendersTotal : Nat)
    (now : Int) (ops : List SessionOp) :
    (runSessionOps (initialSession sessionId userId sendersTotal now) ops).totalFound
      = (runSessionOps (initialSession sessionId userId sendersTotal now) ops).emails.length
    ∧ (okSessionOps (initialSession sessionId userId sendersTotal now) ops = true →
        (runSessionOps (initialSession sessionId userId sendersTotal now) ops).totalIngested
          = countSuccess
              (runSessionOps (initialSession sessionId userId sendersTotal now) ops).emails) :=
  ⟨runSessionOps_totalFound _ ops rfl,
   fun hok => runSessionOps_totalIngested _ ops rfl hok⟩

/-- Witness for C1: a concrete disciplined run (append pending, mark
sending, mark success) on which the amended invariant evaluates. -/
theorem c1_invariants_amended_witness :
    okSessionOps (initialSession "sync_1" "user_1" 1 0) Fixtures.disciplinedOps = true
    ∧ (runSessionOps (initialSession "sync_1" "user_1" 1 0)
        Fixtures.disciplinedOps).totalFound
        = (runSessionOps (initialSession "sync_1" "user_1" 1 0)
            Fixtures.disciplinedOps).emails.length
    ∧ (runSessionOps (initialSession "sync_1" "user_1" 1 0)
        Fixtures.disciplinedOps).totalIngested
        = countSuccess (runSessionOps (initialSession "sync_1" "user_1" 1 0)
            Fixtures.disciplinedOps).emails :=
  ⟨by decide,
   (c1_invariants_amended "sync_1" "user_1" 1 0 Fixtures.disciplinedOps).1,
   (c1_invariants_amended "sync_1" "user_1" 1 0 Fixtures.disciplinedOps).2 (by decide)⟩

/-- Counterexample for C1 as stated: two `success` updates for the same
message leave `totalIngested = 2` while only one email has status
`success`, so the claimed invariant fails for this operation sequence. -/
theorem c1_counterexample :
    ¬ ((runSessionOps (initialSession "sync_1" "user_1" 1 0)
          Fixtures.doubleSuccessOps).totalIngested
        = countSuccess (runSessionOps (initialSession "sync_1" "user_1" 1 0)
            Fixtures.doubleSuccessOps).emails) := by decide

/-- Claim C10: every session-store operation invoked with an absent session
id returns without effect: `getSession` yields nothing and all update
operations return the store unchanged. -/
theorem c10_missing_session_noop (store : Store) (sessionId : String)
    (h : storeGet store sessionId = none)
    (upd : SyncSession → SyncSession) (email : SyncEmail) (messageId : String)
    (status : IngestStatus) (error : Option String) (sender : String)
    (senderOpt : Option String) (connState : ConnectionState)
    (connErr : Option String) :
    getSession store sessionId = none
    ∧ updateSession store sessionId upd = store
    ∧ addEmailToSession store sessionId email = store
    ∧ updateEmailStatus store sessionId messageId status error = store
    ∧ updateCurrentSender store sessionId senderOpt = store
    ∧ markSenderCompleted store sessionId sender = store
    ∧ updateConnectionState store sessionId connState connErr = store := by
  refine ⟨h, ?_, ?_, ?_, ?_, ?_, ?_⟩ <;>
    simp [updateSession, addEmailToSession, updateEmailStatus,
      updateCurrentSender, markSenderCompleted, updateConnectionState, h]

/-- Witness for C10: a concrete store holding one session, probed with a
different id. -/
theorem c10_missing_session_noop_witness :
    storeGet Fixtures.storeA "sync_b" = none
    ∧ (getSession Fixtures.storeA "sync_b" = none
       ∧ updateSession Fixtures.storeA "sync_b" id = Fixtures.storeA
       ∧ addEmailToSession Fixtures.storeA "sync_b" Fixtures.pendingEmail
           = Fixtures.storeA
       ∧ updateEmailStatus Fixtures.storeA "sync_b" "m1" .success none
           = Fixtures.storeA
       ∧ updateCurrentSender Fixtures.storeA "sync_b" (some "s") = Fixtures.storeA
       ∧ markSenderCompleted Fixtures.storeA "sync_b" "s" = Fixtures.storeA
       ∧ updateConnectionState Fixtures.storeA "sync_b" .connected none
           = Fixtures.storeA) :=
  ⟨by decide,
   c10_missing_session_noop Fixtures.storeA "sync_b" (by decide) id
     Fixtures.pendingEmail "m1" .success none "s" (some "s") .connected none⟩

end SyncSessions

namespace Senders

theorem takeWhile_append_of_all {p : Char → Bool} {l1 l2 : List Char}
    (h : ∀ c ∈ l1, p c = true) :
    (l1 ++ l2).takeWhile p = l1 ++ l2.takeWhile p := by
  induction l1 with
  | nil => simp
  | cons c rest ih =>
      have hc : p c = true := h c (by simp)
      simp [List.takeWhile, hc, ih (fun x hx => h x (by simp [hx]))]

theorem dropWhile_append_of_all {p : Char → Bool} {l1 l2 : List Char}
    (h : ∀ c ∈ l1, p c = true) :
    (l1 ++ l2).dropWhile p = l2.dropWhile p := by
  induction l1 with
  | nil => simp
  | cons c rest ih =>
      have hc : p c = true := h c (by simp)
      simp [List.dropWhile, hc, ih (fun x hx => h x (by simp [hx]))]

theorem angleCapture_of_no_gt {l : List Char} (h : ∀ c ∈ l, c ≠ '>') :
    angleCapture l = none := by
  induction l with
  | nil => rfl
  | cons c rest ih =>
      have ih' := ih (fun x hx => h x (by simp [hx]))
      by_cases hc : c = '<'
      · have hdrop : rest.dropWhile (fun x => x != '>') = [] := by
          have : rest.dropWhile (fun x => x != '>') =
              ((rest ++ []).dropWhile (fun x => x != '>')) := by simp
          rw [this, dropWhile_append_of_all (fun x hx => by
            simp [h x (by simp [hx])])]
          rfl
        simp [angleCapture, hc, hdrop, ih']
      · simp [angleCapture, hc, ih']

theorem angleCapture_bracketed {n a : List Char}
    (hn : ∀ c ∈ n, c ≠ '<' ∧ c ≠ '>')
    (ha : ∀ c ∈ a, c ≠ '>') (hne : a ≠ []) :
    angleCapture (n ++ ' ' :: '<' :: (a ++ ['>'])) = some a := by
  induction n with
  | nil =>
      have hall : ∀ c ∈ a, (fun x => x != '>') c = true := fun c hc => by
        simp [ha c hc]
      have htake : (a ++ ['>']).takeWhile (fun x => x != '>') = a := by
        rw [takeWhile_append_of_all hall,
          show List.takeWhile (fun x => x != '>') ['>'] = [] from rfl,
          List.append_nil]
      have hdrop : (a ++ ['>']).dropWhile (fun x => x != '>') = ['>'] := by
        rw [dropWhile_append_of_all hall]; rfl
      simp [angleCapture, htake, hdrop, hne]
  | cons c rest ih =>
      have hc := hn c (by simp)
      have ih' := ih (fun x hx => hn x (by simp [hx]))
      simp [angleCapture, hc.1, ih']

/-- Counterexample for C4 as stated: the domain-suffix revision of
`isApprovedSender` (the current src/lib/approved-senders.ts) tests the raw
From value with `endsWith` and does not extract the address between `<` and
`>`, so a bracketed sender does not match even though its bare address
does — the claimed equality between the two fails. -/
theorem c4_counterexample :
    isApprovedSenderSuffix "Ticketmaster <x@ticketmaster.com>" = false ∧
    isApprovedSenderSuffix "x@ticketmaster.com" = true := by decide

/-- Claim C4 (corrected): only the exact-match revision extracts the
address between `<` and `>` and compares it case-insensitively against the
allow-list; for it, wrapping an approved address in a display name leaves
the verdict unchanged.  The suffix and token revisions test the whole raw
string, so for them a bracketed From value never matches (see the
counterexample). -/
theorem c4_amended (n a : String)
    (hn : ∀ c ∈ n.data, c ≠ '<' ∧ c ≠ '>')
    (ha : ∀ c ∈ a.data, c ≠ '>')
    (hne : a ≠ "") :
    isApprovedSenderExact (n ++ " <" ++ a ++ ">") = isApprovedSenderExact a := by
  have hdata : (n ++ " <" ++ a ++ ">").data
      = n.data ++ ' ' :: '<' :: (a.data ++ ['>']) := by
    show n.data ++ " <".data ++ a.data ++ ">".data
      = n.data ++ ' ' :: '<' :: (a.data ++ ['>'])
    simp
  have hne' : a.data ≠ [] := by
    intro hd
    apply hne
    have h1 : String.mk a.data = a := rfl
    rw [← h1, hd]
  have hcap : angleCapture (n.data ++ ' ' :: '<' :: (a.data ++ ['>'])) = some a.data :=
    angleCapture_bracketed hn ha hne'
  have hnone : angleCapture a.data = none := angleCapture_of_no_gt ha
  have hmk : String.mk a.data = a := rfl
  simp [isApprovedSenderExact, hdata, hcap, hnone, hmk]

/-- Witness for C4: a display-name-wrapped approved address evaluates equal
to the bare address under the exact-match revision. -/
theorem c4_amended_witness :
    (∀ c ∈ "Ticketmaster".data, c ≠ '<' ∧ c ≠ '>')
    ∧ (∀ c ∈ "no-reply@tixr.com".data, c ≠ '>')
    ∧ isApprovedSenderExact ("Ticketmaster" ++ " <" ++ "no-reply@tixr.com" ++ ">")
        = isApprovedSenderExact "no-reply@tixr.com" :=
  ⟨by decide, by decide,
   c4_amended "Ticketmaster" "no-reply@tixr.com" (by decide) (by decide) (by decide)⟩

theorem mem_splitsList {s p q : List Char} :
    (p, q) ∈ splitsList s ↔ p ++ q = s := by
  constructor
  · intro h
    simp only [splitsList, List.mem_map, List.mem_range] at h
    obtain ⟨i, _, hi⟩ := h
    have hp : p = s.take i := by
      have := congrArg Prod.fst hi
      simpa using this.symm
    have hq : q = s.drop i := by
      have := congrArg Prod.snd hi
      simpa using this.symm
    rw [hp, hq]
    exact List.take_append_drop i s
  · intro h
    simp only [splitsList, List.mem_map, List.mem_range]
    refine ⟨p.length, ?_, ?_⟩
    · have : p.length ≤ s.length := by rw [← h]; simp
      omega
    · rw [← h, List.take_left, List.drop_left]

theorem tldTail_iff {l : List Char} :
    tldTail l = true ↔
      ∃ tld, l = '.' :: tld ∧ 2 ≤ tld.length ∧ ∀ c ∈ tld, tldChar c = true := by
  cases l with
  | nil => simp [tldTail]
  | cons c tld =>
      simp [tldTail, Bool.and_eq_true, beq_iff_eq, List.all_eq_true,
        List.cons.injEq, and_assoc, eq_comm (a := c)]

theorem afterAt_iff {tok rest : List Char} :
    afterAt tok rest = true ↔
      ∃ mid1 mid2 tld : List Char,
        rest = mid1 ++ (tok ++ (mid2 ++ '.' :: tld)) ∧
        (∀ c ∈ mid1, domainChar c = true) ∧
        (∀ c ∈ mid2, domainChar c = true) ∧
        2 ≤ tld.length ∧ (∀ c ∈ tld, tldChar c = true) := by
  constructor
  · intro h
    simp only [afterAt, List.any_eq_true, Bool.and_eq_true, beq_iff_eq,
      List.all_eq_true] at h
    obtain ⟨⟨m1, r2⟩, hm1, hall1, ⟨tk, r3⟩, hm2, htk, ⟨m2, r4⟩, hm3, hall2, htld⟩ := h
    rw [mem_splitsList] at hm1 hm2 hm3
    dsimp only at hm2 hm3 htk hall1 hall2 htld
    obtain ⟨tld, hr4, hlen, hch⟩ := tldTail_iff.mp htld
    subst htk
    refine ⟨m1, m2, tld, ?_, hall1, hall2, hlen, hch⟩
    rw [← hm1, ← hm2, ← hm3, hr4]
  · rintro ⟨m1, m2, tld, rfl, h1, h2, hlen, h3⟩
    simp only [afterAt, List.any_eq_true, Bool.and_eq_true, beq_iff_eq,
      List.all_eq_true]
    refine ⟨(m1, tok ++ (m2 ++ '.' :: tld)), mem_splitsList.mpr rfl, h1,
      (tok, m2 ++ '.' :: tld), mem_splitsList.mpr rfl, rfl,
      (m2, '.' :: tld), mem_splitsList.mpr rfl, h2, ?_⟩
    exact tldTail_iff.mpr ⟨tld, rfl, hlen, h3⟩

theorem atHead_iff {tok l : List Char} :
    atHead tok l = true ↔ ∃ rest, l = '@' :: rest ∧ afterAt tok rest = true := by
  cases l with
  | nil => simp [atHead]
  | cons c rest =>
      constructor
      · intro h
        simp only [atHead, Bool.and_eq_true, beq_iff_eq] at h
        exact ⟨rest, by rw [h.1], h.2⟩
      · rintro ⟨r, hr, h⟩
        injection hr with h1 h2
        subst h1
        subst h2
        simp [atHead, h]

theorem tokenPatternMatch_iff {tok s : List Char} :
    tokenPatternMatch tok s = true ↔ SpecTokenMatch tok s := by
  simp only [tokenPatternMatch, List.any_eq_true]
  constructor
  · rintro ⟨⟨pre, l2⟩, hmem, h⟩
    rw [mem_splitsList] at hmem
    obtain ⟨rest, hl2, h⟩ := atHead_iff.mp h
    obtain ⟨m1, m2, tld, hrest, h1, h2, hlen, h3⟩ := afterAt_iff.mp h
    refine ⟨pre, m1, m2, tld, ?_, h1, h2, hlen, h3⟩
    rw [← hmem]
    dsimp at hl2
    rw [hl2, hrest]
  · rintro ⟨pre, m1, m2, tld, rfl, h1, h2, hlen, h3⟩
    refine ⟨(pre, '@' :: (m1 ++ (tok ++ (m2 ++ '.' :: tld)))),
      mem_splitsList.mpr rfl, ?_⟩
    exact atHead_iff.mpr ⟨_, rfl, afterAt_iff.mpr ⟨m1, m2, tld, rfl, h1, h2, hlen, h3⟩⟩

/-- Claim C5: under the substring-in-domain revision, `isApprovedSender`
returns true exactly when some configured brand token (escaped, hence
literal) matches the lowercased address under the pattern
`@[a-z0-9.-]*<token>[a-z0-9.-]*\.[a-z]` with at least two final letters and
the end anchor; in particular `x@email.ticketmaster.co.uk` is approved via
the token `ticketmaster`. -/
theorem c5_substring_policy :
    (∀ email : String,
        isApprovedSenderTokens email = true ↔
          ∃ tok ∈ APPROVED_SENDERS_tokens,
            SpecTokenMatch tok.data (jsToLower email).data)
    ∧ tokenPatternMatch "ticketmaster".data
        (jsToLower "x@email.ticketmaster.co.uk").data = true
    ∧ isApprovedSenderTokens "x@email.ticketmaster.co.uk" = true := by
  refine ⟨fun email => ?_, by decide, by decide⟩
  simp only [isApprovedSenderTokens, List.any_eq_true]
  exact exists_congr fun tok =>
    and_congr_right fun _ => tokenPatternMatch_iff

/-- Counterexample for C6 as stated: the configured suffixes include the
`@` (the list entry is `"@ticketmaster.com"`), so `x@mail.ticketmaster.com`
— whose suffix is `.ticketmaster.com` — is rejected, not accepted. -/
theorem c6_counterexample :
    ¬ isApprovedSenderSuffix "x@mail.ticketmaster.com" = true := by decide

/-- Claim C6 (corrected): with `"@ticketmaster.com"` allow-listed, the
domain-suffix matcher accepts only addresses whose domain is exactly
`ticketmaster.com`: `x@ticketmaster.com` is accepted, while both
`x@mail.ticketmaster.com` (subdomain) and `x@nottickemaster.com` are
rejected. -/
theorem c6_amended :
    "@ticketmaster.com" ∈ APPROVED_SENDERS_suffix
    ∧ isApprovedSenderSuffix "x@ticketmaster.com" = true
    ∧ isApprovedSenderSuffix "x@mail.ticketmaster.com" = false
    ∧ isApprovedSenderSuffix "x@nottickemaster.com" = false := by decide

end Senders

namespace Imap

theorem getLastD_irrel {l : List String} (h : l ≠ []) (d1 d2 : String) :
    l.getLastD d1 = l.getLastD d2 := by
  induction l generalizing d1 d2 with
  | nil => exact absurd rfl h
  | cons a rest ih =>
      cases rest with
      | nil => rfl
      | cons b m => exact ih (by simp) d1 d2

/-- Claim C3 (corrected): the reader half holds — `readUntilTag` consumes
exactly the script prefix up to and including the first line starting with
the tag, and every earlier consumed line (all the `*`-prefixed untagged
lines among them) does not start with the tag.  The uniqueness half fails:
`fetchTicketEmails` reuses tag `A003` for the SEARCH of every approved
sender (see the counterexample). -/
theorem c3_reader_amended (tag : String) (script lines rem : List String)
    (h : readUntilTagAux tag script = some (lines, rem)) :
    script = lines ++ rem ∧ lines ≠ []
    ∧ jsStartsWith (lines.getLastD "") tag = true
    ∧ ∀ l ∈ lines.dropLast, jsStartsWith l tag = false := by
  induction script generalizing lines rem with
  | nil => simp [readUntilTagAux] at h
  | cons l rest ih =>
      by_cases hl : jsStartsWith l tag = true
      · simp only [readUntilTagAux, hl, if_true] at h
        obtain ⟨rfl, rfl⟩ : [l] = lines ∧ rest = rem := by
          simpa using h
        exact ⟨rfl, by simp, by simpa using hl, by simp⟩
      · rw [Bool.not_eq_true] at hl
        simp only [readUntilTagAux, hl, Bool.false_eq_true, if_false] at h
        cases hr : readUntilTagAux tag rest with
        | none => rw [hr] at h; simp at h
        | some p =>
            obtain ⟨lines', rem'⟩ := p
            rw [hr] at h
            obtain ⟨rfl, rfl⟩ : l :: lines' = lines ∧ rem' = rem := by
              simpa using h
            obtain ⟨h1, h2, h3, h4⟩ := ih lines' rem' hr
            refine ⟨by rw [h1]; rfl, by simp, ?_, ?_⟩
            · rw [List.getLastD_cons, getLastD_irrel h2 l "", h3]
            · intro x hx
              cases lines' with
              | nil => exact absurd rfl h2
              | cons b m =>
                  rcases (by simpa using hx :
                      x = l ∨ x ∈ (b :: m).dropLast) with rfl | hx'
                  · exact hl
                  · exact h4 x hx'

/-- Witness for C3: a concrete read consuming one untagged line and the
tagged completion line. -/
theorem c3_reader_amended_witness :
    readUntilTagAux "A1" ["* DATA", "A1 OK done"] = some (["* DATA", "A1 OK done"], [])
    ∧ (["* DATA", "A1 OK done"] = ["* DATA", "A1 OK done"] ++ ([] : List String)
       ∧ (["* DATA", "A1 OK done"] : List String) ≠ []
       ∧ jsStartsWith ((["* DATA", "A1 OK done"] : List String).getLastD "") "A1" = true
       ∧ ∀ l ∈ (["* DATA", "A1 OK done"] : List String).dropLast,
           jsStartsWith l "A1" = false) :=
  ⟨by decide, c3_reader_amended "A1" ["* DATA", "A1 OK done"]
    ["* DATA", "A1 OK done"] [] (by decide)⟩

/-- Counterexample for C3 as stated: on a script where every command
completes, the transcript of `fetchTicketEmails` contains the tag `A003`
once per approved sender, so the sent tags are not pairwise distinct. -/
theorem c3_counterexample :
    ¬ ((fetchTicketEmailsRun "u@example.com" "pw" "1-Jan-2024" (fun _ => none) 0
          Fixtures.tagReuseScript).2.sent.map Prod.fst).Nodup := by decide

theorem resultState_sendCommand (st : ProtoState) (tag command : String) :
    (resultState (sendCommand st tag command)).sent = st.sent ++ [(tag, command)] := by
  unfold sendCommand readUntilTag
  cases h : readUntilTagAux tag st.script with
  | none => simp [h, resultState]
  | some p => obtain ⟨lines, rem⟩ := p; simp [h, resultState]

theorem fetchEmailRun_sent (msgId : String) (parseDate : String → Option Int)
    (now : Int) (st : ProtoState) :
    (resultState (fetchEmailRun msgId parseDate now st)).sent
      = st.sent ++ [("F" ++ msgId, fetchCommand msgId)] := by
  have hsc := resultState_sendCommand st ("F" ++ msgId) (fetchCommand msgId)
  unfold fetchEmailRun pstep
  cases h : sendCommand st ("F" ++ msgId) (fetchCommand msgId) with
  | ok v =>
      obtain ⟨resp, st'⟩ := v
      rw [h] at hsc
      simpa [resultState] using hsc
  | error e =>
      rw [h] at hsc
      simpa [resultState] using hsc

theorem fetchLoop_sent (parseDate : String → Option Int) (now : Int)
    (msgIds : List String) (acc : List JsEmail) (st : ProtoState) :
    ∃ l, (fetchLoop parseDate now msgIds acc st).2.sent = st.sent ++ l := by
  induction msgIds generalizing acc st with
  | nil => exact ⟨[], by simp [fetchLoop]⟩
  | cons msgId rest ih =>
      have hfe := fetchEmailRun_sent msgId parseDate now st
      cases h : fetchEmailRun msgId parseDate now st with
      | ok v =>
          obtain ⟨oe, st'⟩ := v
          rw [h] at hfe
          simp only [resultState] at hfe
          cases oe with
          | some e =>
              obtain ⟨l, hl⟩ := ih (acc ++ [e]) st'
              exact ⟨("F" ++ msgId, fetchCommand msgId) :: l,
                by simp [fetchLoop, h, hl, hfe]⟩
          | none =>
              obtain ⟨l, hl⟩ := ih acc st'
              exact ⟨("F" ++ msgId, fetchCommand msgId) :: l,
                by simp [fetchLoop, h, hl, hfe]⟩
      | error e =>
          obtain ⟨msg, st'⟩ := e
          rw [h] at hfe
          simp only [resultState] at hfe
          obtain ⟨l, hl⟩ := ih acc st'
          exact ⟨("F" ++ msgId, fetchCommand msgId) :: l,
            by simp [fetchLoop, h, hl, hfe]⟩

theorem searchSendersLoop_sent (sinceDate : String) (parseDate : String → Option Int)
    (now : Int) (senders : List String) (acc : List JsEmail) (st : ProtoState) :
    ∃ l, (resultState (searchSendersLoop sinceDate parseDate now senders acc st)).sent
      = st.sent ++ l := by
  induction senders generalizing acc st with
  | nil => exact ⟨[], by simp [searchSendersLoop, resultState]⟩
  | cons sender rest ih =>
      have hsc := resultState_sendCommand st "A003" (searchCommand sender sinceDate)
      cases h : sendCommand st "A003" (searchCommand sender sinceDate) with
      | error e =>
          obtain ⟨msg, st'⟩ := e
          rw [h] at hsc
          simp only [resultState] at hsc
          refine ⟨[("A003", searchCommand sender sinceDate)], ?_⟩
          simp only [searchSendersLoop, pstep, h, resultState]
          exact hsc
      | ok v =>
          obtain ⟨resp, st1⟩ := v
          rw [h] at hsc
          simp only [resultState] at hsc
          cases hf : resp.find? (fun l => jsStartsWith l "* SEARCH") with
          | none =>
              obtain ⟨l, hl⟩ := ih acc st1
              refine ⟨(("A003", searchCommand sender sinceDate)) :: l, ?_⟩
              simp only [searchSendersLoop, pstep, h, hf]
              rw [hl, hsc]
              simp
          | some searchLine =>
              obtain ⟨l2, hl2⟩ := fetchLoop_sent parseDate now
                ((parseSearchIds searchLine).take 10) acc st1
              obtain ⟨l3, hl3⟩ := ih (fetchLoop parseDate now
                ((parseSearchIds searchLine).take 10) acc st1).1
                (fetchLoop parseDate now ((parseSearchIds searchLine).take 10) acc st1).2
              refine ⟨("A003", searchCommand sender sinceDate) :: (l2 ++ l3), ?_⟩
              simp only [searchSendersLoop, pstep, h, hf]
              rw [hl3, hl2, hsc]
              simp

theorem afterLoginSteps_sent (sinceDate : String) (parseDate : String → Option Int)
    (now : Int) (loginResponse : List String) (st : ProtoState) :
    ∃ l, (resultState (afterLoginSteps sinceDate parseDate now loginResponse st)).sent
      = st.sent ++ l := by
  unfold afterLoginSteps
  split
  · exact ⟨[], by simp [resultState]⟩
  · have hsc := resultState_sendCommand st "A002" "SELECT INBOX"
    cases h : sendCommand st "A002" "SELECT INBOX" with
    | error e =>
        obtain ⟨msg, st'⟩ := e
        rw [h] at hsc
        simp only [resultState] at hsc
        exact ⟨[("A002", "SELECT INBOX")],
          by simp only [pstep, h, resultState]; exact hsc⟩
    | ok v =>
        obtain ⟨resp, st1⟩ := v
        rw [h] at hsc
        simp only [resultState] at hsc
        obtain ⟨l2, hl2⟩ := searchSendersLoop_sent sinceDate parseDate now
          Senders.APPROVED_SENDERS_suffix [] st1
        cases h2 : searchSendersLoop sinceDate parseDate now
            Senders.APPROVED_SENDERS_suffix [] st1 with
        | error e =>
            obtain ⟨msg, st'⟩ := e
            rw [h2] at hl2
            simp only [resultState] at hl2
            refine ⟨("A002", "SELECT INBOX") :: l2, ?_⟩
            simp only [pstep, h, h2, resultState]
            rw [hl2, hsc]
            simp
        | ok v2 =>
            obtain ⟨emails, st2⟩ := v2
            rw [h2] at hl2
            simp only [resultState] at hl2
            have hsc3 := resultState_sendCommand st2 "A999" "LOGOUT"
            cases h3 : sendCommand st2 "A999" "LOGOUT" with
            | error e =>
                obtain ⟨msg, st'⟩ := e
                rw [h3] at hsc3
                simp only [resultState] at hsc3
                refine ⟨("A002", "SELECT INBOX") :: (l2 ++ [("A999", "LOGOUT")]), ?_⟩
                simp only [pstep, h, h2, h3, resultState]
                rw [hsc3, hl2, hsc]
                simp
            | ok v3 =>
                obtain ⟨resp3, st3⟩ := v3
                rw [h3] at hsc3
                simp only [resultState] at hsc3
                refine ⟨("A002", "SELECT INBOX") :: (l2 ++ [("A999", "LOGOUT")]), ?_⟩
                simp only [pstep, h, h2, h3, resultState]
                rw [hsc3, hl2, hsc]
                simp

end Imap

namespace Imap

theorem fetchTicketEmailsSteps_login_first (email password sinceDate : String)
    (parseDate : String → Option Int) (now : Int) (g : String) (rest : List String) :
    ∃ l, (resultState (fetchTicketEmailsSteps email password sinceDate parseDate now
        { script := g :: rest, sent := [] })).sent
      = ("A001", loginCommand email password) :: l := by
  have h0 : fetchTicketEmailsSteps email password sinceDate parseDate now
      { script := g :: rest, sent := [] }
    = pstep (sendCommand { script := rest, sent := [] } "A001"
        (loginCommand email password)) (afterLoginSteps sinceDate parseDate now) := rfl
  rw [h0]
  have hsc := resultState_sendCommand { script := rest, sent := ([] : List (String × String)) }
    "A001" (loginCommand email password)
  cases h : sendCommand { script := rest, sent := ([] : List (String × String)) } "A001"
      (loginCommand email password) with
  | error e =>
      obtain ⟨msg, st'⟩ := e
      rw [h] at hsc
      simp only [resultState] at hsc
      exact ⟨[], by simp only [pstep, h, resultState]; simpa using hsc⟩
  | ok v =>
      obtain ⟨resp, st1⟩ := v
      rw [h] at hsc
      simp only [resultState] at hsc
      obtain ⟨l, hl⟩ := afterLoginSteps_sent sinceDate parseDate now resp st1
      refine ⟨l, ?_⟩
      simp only [pstep, h]
      rw [hl, hsc]
      simp

theorem fetchTicketEmailsRun_state (email password sinceDate : String)
    (parseDate : String → Option Int) (now : Int) (script : List String) :
    (fetchTicketEmailsRun email password sinceDate parseDate now script).2
      = resultState (fetchTicketEmailsSteps email password sinceDate parseDate now
          { script := script, sent := [] }) := by
  unfold fetchTicketEmailsRun
  cases h : fetchTicketEmailsSteps email password sinceDate parseDate now
      { script := script, sent := [] } with
  | ok v => obtain ⟨emails, st⟩ := v; simp [resultState]
  | error e => obtain ⟨msg, st⟩ := e; simp [resultState]

/-- Counterexample for C2 as stated: `fetchTicketEmails` reads a greeting
that does not begin with `* OK` and still sends the tagged LOGIN command
(carrying the credentials) as its first command. -/
theorem c2_counterexample :
    jsStartsWith "* NO IMAP service unavailable" "* OK" = false
    ∧ (fetchTicketEmailsRun "u@example.com" "pw" "1-Jan-2024" (fun _ => none) 0
        ["* NO IMAP service unavailable"]).2.sent
      = [("A001", loginCommand "u@example.com" "pw")] := by decide

/-- Claim C2 (corrected): `testConnection` and `fetchSampleEmails` read the
greeting and, when it does not begin with `* OK`, fail with "Unexpected
server greeting" before sending any command; `fetchTicketEmails` reads the
greeting but does not validate it — whatever the greeting is, its first
sent command is the tagged LOGIN carrying the credentials. -/
theorem c2_greeting_amended (email password sinceDate nowIso : String)
    (maxEmails : Nat) (parseDate : String → Option Int) (now : Int)
    (g : String) (rest : List String)
    (hg : jsStartsWith g "* OK" = false) :
    testConnectionImplRun email password (g :: rest)
      = ({ success := false, error := some "Unexpected server greeting" },
         { script := rest, sent := [] })
    ∧ fetchSampleEmailsImplRun email password nowIso maxEmails (g :: rest)
      = ({ success := false, error := some "Unexpected server greeting" },
         { script := rest, sent := [] })
    ∧ (fetchTicketEmailsRun email password sinceDate parseDate now (g :: rest)).2.sent.head?
      = some ("A001", loginCommand email password) := by
  refine ⟨?_, ?_, ?_⟩
  · simp [testConnectionImplRun, testConnectionSteps, readLine, pstep, hg]
  · simp [fetchSampleEmailsImplRun, fetchSampleEmailsSteps, readLine, pstep, hg]
  · rw [fetchTicketEmailsRun_state]
    obtain ⟨l, hl⟩ := fetchTicketEmailsSteps_login_first email password sinceDate
      parseDate now g rest
    rw [hl]
    rfl

/-- Witness for C2: a concrete `* NO` greeting on all three connect paths. -/
theorem c2_greeting_amended_witness :
    jsStartsWith "* NO down" "* OK" = false
    ∧ (testConnectionImplRun "u@example.com" "pw" ["* NO down"]
        = ({ success := false, error := some "Unexpected server greeting" },
           { script := [], sent := [] })
       ∧ fetchSampleEmailsImplRun "u@example.com" "pw" "iso" 10 ["* NO down"]
        = ({ success := false, error := some "Unexpected server greeting" },
           { script := [], sent := [] })
       ∧ (fetchTicketEmailsRun "u@example.com" "pw" "1-Jan-2024" (fun _ => none) 0
            ["* NO down"]).2.sent.head?
        = some ("A001", loginCommand "u@example.com" "pw")) :=
  ⟨by decide,
   c2_greeting_amended "u@example.com" "pw" "1-Jan-2024" "iso" 10 (fun _ => none) 0
     "* NO down" [] (by decide)⟩

/-- Counterexample for C8 as stated: a record whose DATE header is present
but unparsable yields an Invalid Date, not the current time (`now = 0`,
and the engine's parser — modelled by the `parseDate` argument — has no
value for `"not-a-real-date"`). -/
theorem c8_counterexample :
    (fetchEmailParse "F7" "7" Fixtures.fetchRecordBadDate (fun _ => none) 0).map
        JsEmail.date
      = some JsDate.invalid
    ∧ some JsDate.invalid ≠ some (JsDate.valid 0) := by decide

/-- Claim C8 (corrected): the extractor returns `null` when the parsed FROM
or SUBJECT header is absent (or empty — both are falsy); when it returns an
email, `messageId` is the Message-ID header or `` `<sequenceOrUid>@unknown` ``
when that header is missing, and the date is the current time only when the
DATE header is missing — a present DATE header always yields `new Date(d)`,
which is an Invalid Date (not the current time) when `d` is unparsable. -/
theorem c8_extractor_amended (tag msgId : String) (lines : List String)
    (parseDate : String → Option Int) (now : Int) :
    (truthyHeader (fetchParsedState tag lines).headers "from" = none ∨
       truthyHeader (fetchParsedState tag lines).headers "subject" = none →
       fetchEmailParse tag msgId lines parseDate now = none)
    ∧ (∀ e, fetchEmailParse tag msgId lines parseDate now = some e →
        e.messageId
            = (truthyHeader (fetchParsedState tag lines).headers "message-id").getD
                (msgId ++ "@unknown")
        ∧ (truthyHeader (fetchParsedState tag lines).headers "date" = none →
            e.date = JsDate.valid now)
        ∧ (∀ d, truthyHeader (fetchParsedState tag lines).headers "date" = some d →
            e.date = jsNewDate parseDate d)) := by
  constructor
  · intro h
    cases hf : truthyHeader (fetchParsedState tag lines).headers "from" with
    | none => simp [fetchEmailParse, hf]
    | some fv =>
        rcases h with h | h
        · rw [hf] at h; exact absurd h (by simp)
        · simp [fetchEmailParse, hf, h]
  · intro e he
    cases hf : truthyHeader (fetchParsedState tag lines).headers "from" with
    | none => rw [fetchEmailParse] at he; rw [hf] at he; simp at he
    | some fv =>
        cases hs : truthyHeader (fetchParsedState tag lines).headers "subject" with
        | none => rw [fetchEmailParse] at he; rw [hf, hs] at he; simp at he
        | some sv =>
            rw [fetchEmailParse] at he
            rw [hf, hs] at he
            simp only [Option.some.injEq] at he
            subst he
            refine ⟨rfl, ?_, ?_⟩
            · intro hd; simp [hd]
            · intro d hd; simp [hd]

/-- Witness for C8: a record with FROM and SUBJECT but no DATE and no
Message-ID yields the `now` date and the synthetic id; a record without
FROM yields `null`. -/
theorem c8_extractor_amended_witness :
    fetchEmailParse "F7" "7" Fixtures.fetchRecordNoDate (fun _ => none) 5
        = some Fixtures.noDateEmail
    ∧ Fixtures.noDateEmail.messageId = "7@unknown"
    ∧ Fixtures.noDateEmail.date = JsDate.valid 5
    ∧ fetchEmailParse "F7" "7" Fixtures.fetchRecordNoFrom (fun _ => none) 5 = none := by
  have hsome : fetchEmailParse "F7" "7" Fixtures.fetchRecordNoDate (fun _ => none) 5
      = some Fixtures.noDateEmail := by decide
  refine ⟨hsome, ?_, ?_, ?_⟩
  · exact ((c8_extractor_amended "F7" "7" Fixtures.fetchRecordNoDate
      (fun _ => none) 5).2 Fixtures.noDateEmail hsome).1.trans (by decide)
  · exact ((c8_extractor_amended "F7" "7" Fixtures.fetchRecordNoDate
      (fun _ => none) 5).2 Fixtures.noDateEmail hsome).2.1 (by decide)
  · exact (c8_extractor_amended "F7" "7" Fixtures.fetchRecordNoFrom
      (fun _ => none) 5).1 (Or.inl (by decide))

end Imap

namespace Extract

/-- Claim C7: for a message with both parts and a non-empty HTML part, the
body is the HTML-to-text conversion exactly when the plaintext part is
shorter than 100 characters, and the plaintext part otherwise. -/
theorem c7_body_preference (convert : String → String) (text html : String)
    (hhtml : 0 < html.length) :
    (text.length < 100 → extractBody convert text html = convert html)
    ∧ (100 ≤ text.length → extractBody convert text html = text) := by
  constructor
  · intro h
    simp [extractBody, h, hhtml]
  · intro h
    have h' : ¬ text.length < 100 := by omega
    simp [extractBody, h']

/-- Witness for C7: a 40-character plaintext part alongside a present HTML
part yields the converted HTML, not the plaintext. -/
theorem c7_body_preference_witness :
    Fixtures.shortPlaintext.length = 40
    ∧ 0 < Fixtures.htmlPart.length
    ∧ Fixtures.shortPlaintext.length < 100
    ∧ extractBody id Fixtures.shortPlaintext Fixtures.htmlPart = id Fixtures.htmlPart :=
  ⟨by decide, by decide, by decide,
   (c7_body_preference id Fixtures.shortPlaintext Fixtures.htmlPart (by decide)).1
     (by decide)⟩

end Extract

namespace Api

theorem syncPostAfterRateLimit_dry (inp : SyncPostInput) (userId : String)
    (h : inp.dryRun = true) :
    (syncPostAfterRateLimit inp userId).store = inp.store
    ∧ (syncPostAfterRateLimit inp userId).effects = noEffects
    ∧ (∀ emails, inp.fetchResult = .ok emails →
        (syncPostAfterRateLimit inp userId).status = 200
        ∧ (syncPostAfterRateLimit inp userId).response
            = .preview (emails.map (toEmailForIngest inp.isoOf)) emails.length) := by
  cases hf : inp.fetchResult with
  | error msg =>
      refine ⟨?_, ?_, ?_⟩
      · simp [syncPostAfterRateLimit, h, hf]
      · simp [syncPostAfterRateLimit, h, hf]
      · intro emails hemails
        exact absurd hemails (by simp)
  | ok emails =>
      refine ⟨?_, ?_, ?_⟩
      · simp [syncPostAfterRateLimit, h, hf]
      · simp [syncPostAfterRateLimit, h, hf]
      · intro emails' hemails
        obtain rfl : emails = emails' := by simpa using hemails
        constructor
        · simp [syncPostAfterRateLimit, h, hf]
        · simp [syncPostAfterRateLimit, h, hf]

/-- Claim C9: a `dryRun=true` request leaves the session store unchanged
and produces no external effect (no ingest POST, no credential-timestamp
write, no audit row), and on a successful fetch it returns the extracted
email list synchronously as a 200 preview. -/
theorem c9_dry_run_no_effects (inp : SyncPostInput) (hdry : inp.dryRun = true) :
    (syncPost inp).store = inp.store
    ∧ (syncPost inp).effects = noEffects
    ∧ (∀ userId lookbackDays cred emails,
        inp.encryptionKeySet = true → inp.user = some userId →
        inp.lookbackDays = some lookbackDays → ¬ lookbackDays < 1 →
        inp.cred = some cred → inp.fetchResult = .ok emails →
        (syncPost inp).status = 200
        ∧ (syncPost inp).response
            = .preview (emails.map (toEmailForIngest inp.isoOf)) emails.length) := by
  have key : (syncPost inp).store = inp.store ∧ (syncPost inp).effects = noEffects := by
    cases hek : inp.encryptionKeySet with
    | false => simp [syncPost, hek]
    | true =>
        cases hu : inp.user with
        | none => simp [syncPost, hek, hu]
        | some userId =>
            obtain ⟨h1, h2, _⟩ := syncPostAfterRateLimit_dry inp userId hdry
            cases hl : inp.lookbackDays with
            | none => simp [syncPost, hek, hu, hl]
            | some d =>
                by_cases hd : d < 1
                · simp [syncPost, hek, hu, hl, hd]
                · cases hc : inp.cred with
                  | none => simp [syncPost, hek, hu, hl, hd, hc]
                  | some cred =>
                      cases hlm : cred.lastManualSyncAt with
                      | none =>
                          simp only [syncPost, hek, hu, hl, hd, hc, hlm]
                          simp only [Bool.not_true, Bool.false_eq_true, if_false]
                          exact ⟨h1, h2⟩
                      | some t =>
                          simp only [syncPost, hek, hu, hl, hd, hc, hlm, hdry]
                          simp only [Bool.not_true, Bool.false_eq_true, if_false,
                            Bool.and_false, Bool.false_and]
                          exact ⟨h1, h2⟩
  refine ⟨key.1, key.2, ?_⟩
  intro userId d cred emails hek hu hl hd hc hf
  have hbranch : syncPost inp = syncPostAfterRateLimit inp userId := by
    cases hlm : cred.lastManualSyncAt with
    | none =>
        simp only [syncPost, hek, hu, hl, hc, hlm]
        simp [hd]
    | some t =>
        simp only [syncPost, hek, hu, hl, hc, hlm, hdry]
        simp [hd]
  obtain ⟨_, _, h3⟩ := syncPostAfterRateLimit_dry inp userId hdry
  rw [hbranch]
  exact h3 emails hf

/-- Witness for C9: a concrete dry-run request on a populated store with a
one-email fetch result. -/
theorem c9_dry_run_no_effects_witness :
    Fixtures.dryRunInput.dryRun = true
    ∧ (syncPost Fixtures.dryRunInput).store = Fixtures.dryRunInput.store
    ∧ (syncPost Fixtures.dryRunInput).effects = noEffects
    ∧ (syncPost Fixtures.dryRunInput).status = 200
    ∧ (syncPost Fixtures.dryRunInput).response
        = .preview ([Fixtures.emailA].map
            (toEmailForIngest Fixtures.dryRunInput.isoOf)) [Fixtures.emailA].length :=
  ⟨rfl,
   (c9_dry_run_no_effects Fixtures.dryRunInput rfl).1,
   (c9_dry_run_no_effects Fixtures.dryRunInput rfl).2.1,
   ((c9_dry_run_no_effects Fixtures.dryRunInput rfl).2.2 "u1" 30 Fixtures.credA
     [Fixtures.emailA] rfl rfl rfl (by decide) rfl rfl).1,
   ((c9_dry_run_no_effects Fixtures.dryRunInput rfl).2.2 "u1" 30 Fixtures.credA
     [Fixtures.emailA] rfl rfl rfl (by decide) rfl rfl).2⟩

end Api
